import Mathlib

/-!
Verification development for the notifications-system Lambda
(`src/lambda/event_processor.py`, `src/lambda/notification_manager.py`).

Shallow embedding conventions:
* Timezone-aware datetimes are modelled as whole minutes since the civil
  epoch 1970-01-01 00:00 in the single configured timezone (`America/Lima`
  has a fixed UTC offset, so pytz-aware comparison and arithmetic between
  values localized in that zone coincide with naive minute arithmetic;
  `strptime` with format `%Y-%m-%d %H:%M` only ever yields whole minutes,
  so seconds and microseconds are always zero).
* Python dicts holding event data are modelled as association lists of
  string pairs, with `dget` playing the role of `dict.get(key, default)`.
* The external effects (DynamoDB `get_item` / `put_item`, SNS publish,
  Discord webhook post) are modelled by boolean oracles in `Env`: a `true`
  value of `lookupRaises` / `putRaises` means the corresponding call raises,
  and `emailSendOk` / `discordSendOk` give the per-channel outcome of one
  send attempt.  The DynamoDB table is a list of items; `put_item`
  overwrites on a duplicate primary key, and since every read of the table
  is the key-membership test `'Item' in response`, appending the new item
  has the same observable semantics.
* Every `try/except` of the Python source is translated explicitly: a
  caught exception becomes the value the handler returns (`none`, `false`,
  or the accumulated result).
-/

/-- Minutes since 1970-01-01 00:00 local time. -/
abbrev Minutes := Int

/-- Gregorian leap-year test, as used by `datetime.strptime` validation. -/
def leapYear (y : Nat) : Bool :=
  (y % 4 == 0 && y % 100 != 0) || y % 400 == 0

/-- Number of days in month `m` of year `y`. -/
def daysInMonth (y m : Nat) : Nat :=
  if m == 2 then (if leapYear y then 29 else 28)
  else if m == 4 || m == 6 || m == 9 || m == 11 then 30
  else 31

/-- Days from the civil epoch 1970-01-01 to year `y`, month `m`, day `d`
(standard civil-calendar day-number computation, matching the proleptic
Gregorian calendar that `datetime` uses). -/
def daysFromCivil (y m d : Nat) : Int :=
  let y' := if m ≤ 2 then y - 1 else y
  let era := y' / 400
  let yoe := y' % 400
  let mp := if m > 2 then m - 3 else m + 9
  let doy := (153 * mp + 2) / 5 + (d - 1)
  let doe := yoe * 365 + yoe / 4 - yoe / 100 + doy
  (era : Int) * 146097 + (doe : Int) - 719468

/-- Numeric value of a decimal digit character. -/
def digitVal (c : Char) : Nat := c.toNat - 48

/-- Parse an `HH:MM` string into minutes past midnight
(the `%H:%M` part of `datetime.strptime(..., '%Y-%m-%d %H:%M')`). -/
def parseTimeMin (s : String) : Option Nat :=
  match s.data with
  | [h1, h2, ':', m1, m2] =>
    if h1.isDigit && h2.isDigit && m1.isDigit && m2.isDigit then
      let hh := digitVal h1 * 10 + digitVal h2
      let mm := digitVal m1 * 10 + digitVal m2
      if hh ≤ 23 && mm ≤ 59 then some (hh * 60 + mm) else none
    else none
  | _ => none

/-- Parse a `YYYY-MM-DD` string into a day number
(the `%Y-%m-%d` part of the same `strptime` call; `strptime` validates the
month range and the day against the month length). -/
def parseDateDay (s : String) : Option Int :=
  match s.data with
  | [y1, y2, y3, y4, '-', n1, n2, '-', d1, d2] =>
    if y1.isDigit && y2.isDigit && y3.isDigit && y4.isDigit &&
        n1.isDigit && n2.isDigit && d1.isDigit && d2.isDigit then
      let y := digitVal y1 * 1000 + digitVal y2 * 100 + digitVal y3 * 10 + digitVal y4
      let n := digitVal n1 * 10 + digitVal n2
      let d := digitVal d1 * 10 + digitVal d2
      if 1 ≤ y && 1 ≤ n && n ≤ 12 && 1 ≤ d && d ≤ daysInMonth y n then
        some (daysFromCivil y n d)
      else none
    else none
  | _ => none

/-- `EventProcessor._parse_event_datetime`: combine the date and time
strings and parse them with `strptime('%Y-%m-%d %H:%M')`; on any parse
failure the exception is caught and `None` is returned. -/
def parseEventDatetime (dateStr timeStr : String) : Option Minutes :=
  match parseDateDay dateStr, parseTimeMin timeStr with
  | some day, some m => some (day * 1440 + (m : Int))
  | _, _ => none

/-- Per-channel success flags returned by
`NotificationManager.send_notification`. -/
structure ChannelResults where
  email : Bool
  discord : Bool
deriving DecidableEq

/-- One DynamoDB item written by
`EventProcessor._send_and_track_notification` (the `event_details`
payload is the event dict itself and is not read back anywhere, so it is
elided). -/
structure LedgerItem where
  event_id : String
  event_type : String
  event_date : String
  notification_label : String
  sent_at : Minutes
  channels : ChannelResults
deriving DecidableEq

/-- The DynamoDB notifications table. -/
abbrev Ledger := List LedgerItem

/-- Oracles for the external effects, keyed by the data each call sends:
ledger calls by (composite key, event_type); channel sends by
(event_id, event_type, label). -/
structure Env where
  lookupRaises : String → String → Bool
  putRaises : String → String → Bool
  emailSendOk : String → String → String → Bool
  discordSendOk : String → String → String → Bool

/-- `dict.get(key, default)` on an event-data dict. -/
def dget (d : List (String × String)) (k dflt : String) : String :=
  match d.find? (fun p => p.1 == k) with
  | some p => p.2
  | none => dflt

/-- `EventProcessor._parse_event_row`: fixed positional layouts per event
type; a short row yields `None`.  Study rows have no `time` key, so
`event_data.get('time', '')` later returns the empty string for them. -/
def parseEventRow (row : List String) (etype : String) :
    Option (List (String × String)) :=
  if etype == "concerts" then
    if row.length < 6 then none
    else some [("event_id", row.getD 0 ""), ("band", row.getD 1 ""),
      ("venue", row.getD 2 ""), ("date", row.getD 3 ""),
      ("time", row.getD 4 ""), ("location", row.getD 5 ""),
      ("notified_at", if row.length > 6 then row.getD 6 "" else ""),
      ("notes", if row.length > 7 then row.getD 7 "" else "")]
  else if etype == "interviews" then
    if row.length < 7 then none
    else some [("event_id", row.getD 0 ""), ("company", row.getD 1 ""),
      ("position", row.getD 2 ""), ("date", row.getD 3 ""),
      ("time", row.getD 4 ""), ("interviewer", row.getD 5 ""),
      ("stage", row.getD 6 ""),
      ("notified_at", if row.length > 7 then row.getD 7 "" else ""),
      ("prep_notes", if row.length > 8 then row.getD 8 "" else "")]
  else
    if row.length < 6 then none
    else some [("event_id", row.getD 0 ""), ("course", row.getD 1 ""),
      ("topic", row.getD 2 ""), ("date", row.getD 3 ""),
      ("duration", row.getD 4 ""), ("priority", row.getD 5 ""),
      ("notified_at", if row.length > 6 then row.getD 6 "" else ""),
      ("resources", if row.length > 7 then row.getD 7 "" else "")]

/-- A notification rule dict as received by
`EventProcessor._check_notification_needed`: the Python code accesses
`rule['days']`, `rule['hours']`, `rule['label']`, each of which raises
`KeyError` when absent, so each field is optional here. -/
structure RawRule where
  days : Option Int
  hours : Option Int
  label : Option String
deriving DecidableEq

/-- A rule carries all three keys. -/
def ruleOk (r : RawRule) : Bool :=
  r.days.isSome && r.hours.isSome && r.label.isSome

/-- A well-formed rule, as configured in `handler.NOTIFICATION_RULES`. -/
structure Rule where
  days : Int
  hours : Int
  label : String
deriving DecidableEq

/-- View a well-formed rule as the dict the processor receives. -/
def Rule.raw (r : Rule) : RawRule :=
  { days := some r.days, hours := some r.hours, label := some r.label }

/-- The composite DynamoDB key `f"{event_id}#{notification_label}"`. -/
def notificationKey (eid lab : String) : String := eid ++ "#" ++ lab

/-- `'Item' in response`: the table holds an item with this primary key. -/
def ledgerHas (ledger : Ledger) (key etype : String) : Bool :=
  ledger.any fun it => it.event_id == key && it.event_type == etype

/-- `EventProcessor._is_already_notified`: point lookup on
`(event_id#label, event_type)`; if `get_item` raises, the exception is
caught and `False` is returned (fail open). -/
def isAlreadyNotified (env : Env) (ledger : Ledger)
    (eid etype lab : String) : Bool :=
  if env.lookupRaises (notificationKey eid lab) etype then false
  else ledgerHas ledger (notificationKey eid lab) etype

/-- `dt.replace(hour=18, minute=0, second=0, microsecond=0)`: keep the
civil day of `t` and set the time-of-day to 18:00. -/
def replaceSixPm (t : Minutes) : Minutes :=
  t.fdiv 1440 * 1440 + 1080

/-- `notification_time` for one rule: `event_datetime - timedelta(days,
hours)`, overridden for the study rule `1_day_before_6pm` to 18:00 on the
day before the event. -/
def notificationTime (etype : String) (edt : Minutes) (dys hrs : Int)
    (lab : String) : Minutes :=
  if etype == "study" && lab == "1_day_before_6pm" then
    replaceSixPm (edt - 1440)
  else edt - (dys * 1440 + hrs * 60)

/-- Half of the notification window: `window_hours = 2` for the
`hourly-urgent` trigger, else `6`, and the window extends
`window_hours / 2` hours on each side of `notification_time`. -/
def halfWidthMin (trig : String) : Minutes :=
  if trig == "hourly-urgent" then 60 else 180

/-- The per-rule loop of `EventProcessor._check_notification_needed`.
A missing rule key raises `KeyError`, which the surrounding
`try/except` turns into returning the labels accumulated so far. -/
def checkGo (env : Env) (ledger : Ledger) (eid etype : String)
    (edt now : Minutes) (trig : String) :
    List RawRule → List String → List String
  | [], acc => acc
  | r :: rs, acc =>
    match r.days, r.hours, r.label with
    | some dys, some hrs, some lab =>
      let nt := notificationTime etype edt dys hrs lab
      let hw := halfWidthMin trig
      if nt - hw ≤ now ∧ now ≤ nt + hw then
        if isAlreadyNotified env ledger eid etype lab then
          checkGo env ledger eid etype edt now trig rs acc
        else
          checkGo env ledger eid etype edt now trig rs (acc ++ [lab])
      else checkGo env ledger eid etype edt now trig rs acc
    | _, _, _ => acc

/-- `EventProcessor._check_notification_needed`: parse the event datetime
(unparseable → empty), skip past events, then evaluate each rule's window
and the ledger before collecting its label. -/
def checkNotificationNeeded (env : Env) (ledger : Ledger)
    (ev : List (String × String)) (etype : String) (rules : List RawRule)
    (now : Minutes) (trig : String) : List String :=
  match parseEventDatetime (dget ev "date" "") (dget ev "time" "") with
  | none => []
  | some edt =>
    if edt < now then []
    else checkGo env ledger (dget ev "event_id" "") etype edt now trig rules []

/-- The `(event_type, label)` pairs for which
`NotificationManager._format_email_message` finds a template; for any
other pair the template dict is empty and `template['subject']` raises,
which the outer handler turns into `{email: False, discord: False}`
before either channel is attempted. -/
def knownTemplate (etype lab : String) : Bool :=
  (etype == "concerts" &&
    (lab == "2_weeks_before" || lab == "1_day_before" || lab == "4_hours_before")) ||
  (etype == "interviews" &&
    (lab == "1_week_before" || lab == "1_day_before" || lab == "1_hour_before")) ||
  (etype == "study" && lab == "1_day_before_6pm")

/-- `NotificationManager.send_notification`: formats both messages, then
attempts the email channel and the Discord channel in separate
`try/except` blocks, so each channel's outcome is its own oracle value
and neither attempt is suppressed by the other's failure. -/
def sendNotification (env : Env) (ev : List (String × String))
    (etype lab : String) : ChannelResults :=
  if knownTemplate etype lab then
    { email := env.emailSendOk (dget ev "event_id" "") etype lab,
      discord := env.discordSendOk (dget ev "event_id" "") etype lab }
  else { email := false, discord := false }

/-- `EventProcessor._send_and_track_notification`: send, and if at least
one channel succeeded write the ledger item; if `put_item` raises the
exception is caught and the function returns `False` with the table
unchanged. -/
def sendAndTrack (env : Env) (ledger : Ledger)
    (ev : List (String × String)) (etype lab : String) (now : Minutes) :
    Bool × Ledger :=
  let results := sendNotification env ev etype lab
  if results.email || results.discord then
    let key := notificationKey (dget ev "event_id" "") lab
    if env.putRaises key etype then (false, ledger)
    else (true, ledger ++
      [{ event_id := key
         event_type := etype
         event_date := dget ev "date" ""
         notification_label := lab
         sent_at := now
         channels := results }])
  else (false, ledger)

/-- Mutable state of one `process_events` call: the two counters, the
error list, and the DynamoDB table.  `sent` lists the `(event_id, label)`
pairs for which `_send_and_track_notification` returned `True`;
`notifications_sent` is its length. -/
structure ProcState where
  events_processed : Nat
  sent : List (String × String)
  errors : List String
  ledger : Ledger

/-- The inner `for notification_label in notifications` loop of
`process_events`. -/
def processLabels (env : Env) (ev : List (String × String))
    (etype : String) (now : Minutes) :
    List String → ProcState → ProcState
  | [], st => st
  | lab :: rest, st =>
    let r := sendAndTrack env st.ledger ev etype lab now
    let st' :=
      if r.1 then
        { st with ledger := r.2
                  sent := st.sent ++ [(dget ev "event_id" "", lab)] }
      else { st with ledger := r.2 }
    processLabels env ev etype now rest st'

/-- One iteration of the row loop of `process_events`.  A row that parses
to `None` or has a falsy `event_id` is skipped (`continue`) without
touching the counters or the error list; inside the loop every callee
catches its own exceptions, so the per-row `except` branch that would
append to `errors` is unreachable. -/
def processRow (env : Env) (etype : String) (rules : List RawRule)
    (now : Minutes) (trig : String) (st : ProcState) (row : List String) :
    ProcState :=
  match parseEventRow row etype with
  | none => st
  | some ev =>
    if dget ev "event_id" "" == "" then st
    else
      let st1 := { st with events_processed := st.events_processed + 1 }
      processLabels env ev etype now
        (checkNotificationNeeded env st1.ledger ev etype rules now trig) st1

/-- `EventProcessor.process_events`, with the DynamoDB table threaded as
explicit state. -/
def processEventsFull (env : Env) (rows : List (List String))
    (etype : String) (rules : List RawRule) (now : Minutes) (trig : String)
    (ledger : Ledger) : ProcState :=
  rows.foldl (processRow env etype rules now trig)
    { events_processed := 0, sent := [], errors := [], ledger := ledger }

/-- The summary dict returned by `process_events`. -/
structure ProcessingResult where
  events_processed : Nat
  notifications_sent : Nat
  errors : List String
deriving DecidableEq

/-- `process_events` restricted to its returned summary. -/
def processEvents (env : Env) (rows : List (List String)) (etype : String)
    (rules : List RawRule) (now : Minutes) (trig : String)
    (ledger : Ledger) : ProcessingResult :=
  let st := processEventsFull env rows etype rules now trig ledger
  { events_processed := st.events_processed,
    notifications_sent := st.sent.length, errors := st.errors }

/-- A row that `process_events` counts in `events_processed`: it parses
and its `event_id` is truthy. -/
def rowValid (etype : String) (row : List String) : Bool :=
  match parseEventRow row etype with
  | some ev => dget ev "event_id" "" != ""
  | none => false

/-! ### Concrete runs used to exercise the theorems -/

/-- All external calls succeed. -/
def envAllOk : Env :=
  { lookupRaises := fun _ _ => false
    putRaises := fun _ _ => false
    emailSendOk := fun _ _ _ => true
    discordSendOk := fun _ _ _ => true }

/-- Channels succeed but every `put_item` raises. -/
def envPutFails : Env :=
  { lookupRaises := fun _ _ => false
    putRaises := fun _ _ => true
    emailSendOk := fun _ _ _ => true
    discordSendOk := fun _ _ _ => false }

/-- Every `get_item` raises; writes and channels succeed. -/
def envLookupFails : Env :=
  { lookupRaises := fun _ _ => true
    putRaises := fun _ _ => false
    emailSendOk := fun _ _ _ => true
    discordSendOk := fun _ _ _ => true }

/-- Email channel fails, Discord channel succeeds, ledger healthy. -/
def envEmailDown : Env :=
  { lookupRaises := fun _ _ => false
    putRaises := fun _ _ => false
    emailSendOk := fun _ _ _ => false
    discordSendOk := fun _ _ _ => true }

/-- 2025-03-10 10:00 local time. -/
def nowMar10 : Minutes := daysFromCivil 2025 3 10 * 1440 + 600

/-- One valid concert row for 2025-03-10 10:00. -/
def rowsOneConcert : List (List String) :=
  [["id1", "Band", "Venue", "2025-03-10", "10:00", "Lima"]]

/-- The event dict `_parse_event_row` builds from that row. -/
def evConcert1 : List (String × String) :=
  [("event_id", "id1"), ("band", "Band"), ("venue", "Venue"),
   ("date", "2025-03-10"), ("time", "10:00"), ("location", "Lima"),
   ("notified_at", ""), ("notes", "")]

/-- A concerts rule firing at the event time itself. -/
def zeroOffsetRule : RawRule :=
  Rule.raw { days := 0, hours := 0, label := "1_day_before" }

/-- The configured concerts rule `1_day_before`. -/
def ruleOneDay : Rule := { days := 1, hours := 0, label := "1_day_before" }

/-- The zero-offset concerts rule behind `zeroOffsetRule`. -/
def ruleZero : Rule := { days := 0, hours := 0, label := "1_day_before" }

/-- Five concert rows whose third row is malformed (too few columns). -/
def rowsFiveConcerts : List (List String) :=
  [["c1", "B1", "V1", "2025-03-10", "10:00", "L1"],
   ["c2", "B2", "V2", "2025-03-10", "11:00", "L2"],
   ["c3", "B3"],
   ["c4", "B4", "V4", "2025-03-10", "12:00", "L4"],
   ["c5", "B5", "V5", "2025-03-10", "13:00", "L5"]]

/-- A ledger item already recorded for `id1` / `1_day_before`. -/
def itemId1 : LedgerItem :=
  { event_id := notificationKey "id1" "1_day_before"
    event_type := "concerts"
    event_date := "2025-03-10"
    notification_label := "1_day_before"
    sent_at := nowMar10
    channels := { email := true, discord := true } }

/-! ### Helper lemmas about the window evaluator -/

/-- Every label that `checkGo` adds to the accumulator passed the ledger
check at the moment it was added. -/
theorem mem_checkGo (env : Env) (ledger : Ledger) (eid etype : String)
    (edt now : Minutes) (trig : String) :
    ∀ (rules : List RawRule) (acc : List String) (lab : String),
      lab ∈ checkGo env ledger eid etype edt now trig rules acc →
      lab ∈ acc ∨ isAlreadyNotified env ledger eid etype lab = false := by
  intro rules
  induction rules with
  | nil =>
    intro acc lab h
    exact Or.inl (by simpa [checkGo] using h)
  | cons r rs ih =>
    intro acc lab h
    cases hd : r.days with
    | none => simp [checkGo, hd] at h; exact Or.inl h
    | some dys =>
      cases hh : r.hours with
      | none => simp [checkGo, hd, hh] at h; exact Or.inl h
      | some hrs =>
        cases hl : r.label with
        | none => simp [checkGo, hd, hh, hl] at h; exact Or.inl h
        | some lab' =>
          simp only [checkGo, hd, hh, hl] at h
          split at h
          · split at h
            · exact ih acc lab h
            · rcases ih _ lab h with hacc | hfree
              · rcases List.mem_append.mp hacc with hacc' | hone
                · exact Or.inl hacc'
                · have hlabeq : lab = lab' := by simpa using hone
                  subst hlabeq
                  rename_i hwin hnot
                  exact Or.inr (by simpa using hnot)
              · exact Or.inr hfree
          · exact ih acc lab h

/-- Every label returned by the window evaluator passed the ledger check
against the ledger it was evaluated with. -/
theorem mem_checkNeeded (env : Env) (ledger : Ledger)
    (ev : List (String × String)) (etype : String) (rules : List RawRule)
    (now : Minutes) (trig : String) (lab : String)
    (h : lab ∈ checkNotificationNeeded env ledger ev etype rules now trig) :
    isAlreadyNotified env ledger (dget ev "event_id" "") etype lab = false := by
  unfold checkNotificationNeeded at h
  split at h
  · simp at h
  · split at h
    · simp at h
    · rcases mem_checkGo env ledger (dget ev "event_id" "") etype _ now trig
        rules [] lab h with hacc | hfree
      · simp at hacc
      · exact hfree

/-- `checkGo` processes exactly the longest well-formed head of the rule
list: the first rule with a missing key aborts the loop with the labels
accumulated so far. -/
theorem checkGo_takeWhile (env : Env) (ledger : Ledger) (eid etype : String)
    (edt now : Minutes) (trig : String) :
    ∀ (rules : List RawRule) (acc : List String),
      checkGo env ledger eid etype edt now trig rules acc =
      checkGo env ledger eid etype edt now trig (rules.takeWhile ruleOk) acc := by
  intro rules
  induction rules with
  | nil => intro acc; rfl
  | cons r rs ih =>
    intro acc
    cases hd : r.days with
    | none => simp [checkGo, hd, List.takeWhile_cons, ruleOk]
    | some dys =>
      cases hh : r.hours with
      | none => simp [checkGo, hd, hh, List.takeWhile_cons, ruleOk]
      | some hrs =>
        cases hl : r.label with
        | none => simp [checkGo, hd, hh, hl, List.takeWhile_cons, ruleOk]
        | some lab' =>
          have hok : ruleOk r = true := by simp [ruleOk, hd, hh, hl]
          simp only [List.takeWhile_cons, hok, if_true]
          simp only [checkGo, hd, hh, hl]
          split
          · split
            · exact ih acc
            · exact ih (acc ++ [lab'])
          · exact ih acc

/-! ### Helper lemmas about the orchestrator state -/

/-- Writing one notification never removes an existing ledger item. -/
theorem ledgerHas_sendAndTrack (env : Env) (ledger : Ledger)
    (ev : List (String × String)) (etype lab : String) (now : Minutes)
    (k t : String) (h : ledgerHas ledger k t = true) :
    ledgerHas (sendAndTrack env ledger ev etype lab now).2 k t = true := by
  simp only [sendAndTrack]
  split
  · split
    · simpa using h
    · unfold ledgerHas at h ⊢
      simp only [List.any_append]
      simp [h]
  · simpa using h

/-- The notification loop touches only `sent` and `ledger`. -/
theorem processLabels_counters (env : Env) (ev : List (String × String))
    (etype : String) (now : Minutes) :
    ∀ (labs : List String) (st : ProcState),
      (processLabels env ev etype now labs st).events_processed =
          st.events_processed ∧
      (processLabels env ev etype now labs st).errors = st.errors := by
  intro labs
  induction labs with
  | nil => intro st; exact ⟨rfl, rfl⟩
  | cons lab rest ih =>
    intro st
    simp only [processLabels]
    split
    · exact ih _
    · exact ih _

/-- The notification loop never removes an existing ledger item. -/
theorem processLabels_ledgerHas (env : Env) (ev : List (String × String))
    (etype : String) (now : Minutes) (k t : String) :
    ∀ (labs : List String) (st : ProcState),
      ledgerHas st.ledger k t = true →
      ledgerHas (processLabels env ev etype now labs st).ledger k t = true := by
  intro labs
  induction labs with
  | nil => intro st h; exact h
  | cons lab rest ih =>
    intro st h
    simp only [processLabels]
    split
    · exact ih _ (ledgerHas_sendAndTrack env st.ledger ev etype lab now k t h)
    · exact ih _ (ledgerHas_sendAndTrack env st.ledger ev etype lab now k t h)

/-- Every pair the notification loop appends to `sent` pairs this event's
id with one of the labels it was given. -/
theorem processLabels_sent_src (env : Env) (ev : List (String × String))
    (etype : String) (now : Minutes) :
    ∀ (labs : List String) (st : ProcState) (p : String × String),
      p ∈ (processLabels env ev etype now labs st).sent →
      p ∈ st.sent ∨ (p.1 = dget ev "event_id" "" ∧ p.2 ∈ labs) := by
  intro labs
  induction labs with
  | nil => intro st p h; exact Or.inl h
  | cons lab rest ih =>
    intro st p h
    simp only [processLabels] at h
    split at h
    · rcases ih _ p h with hin | ⟨h1, h2⟩
      · simp only [List.mem_append, List.mem_singleton] at hin
        rcases hin with hin | rfl
        · exact Or.inl hin
        · exact Or.inr ⟨rfl, by simp⟩
      · exact Or.inr ⟨h1, by simp [h2]⟩
    · rcases ih _ p h with hin | ⟨h1, h2⟩
      · exact Or.inl hin
      · exact Or.inr ⟨h1, by simp [h2]⟩

/-- One row iteration never removes an existing ledger item. -/
theorem processRow_ledgerHas (env : Env) (etype : String)
    (rules : List RawRule) (now : Minutes) (trig : String)
    (st : ProcState) (row : List String) (k t : String)
    (h : ledgerHas st.ledger k t = true) :
    ledgerHas (processRow env etype rules now trig st row).ledger k t = true := by
  unfold processRow
  split
  · exact h
  · split
    · exact h
    · exact processLabels_ledgerHas env _ etype now k t _ _ h

/-- Every pair one row iteration appends to `sent` comes from that row's
event and from the label list the window evaluator returned for it,
evaluated against the ledger as it stood when the row started. -/
theorem processRow_sent_src (env : Env) (etype : String)
    (rules : List RawRule) (now : Minutes) (trig : String)
    (st : ProcState) (row : List String) (p : String × String)
    (h : p ∈ (processRow env etype rules now trig st row).sent) :
    p ∈ st.sent ∨
      ∃ ev, parseEventRow row etype = some ev ∧
        p.1 = dget ev "event_id" "" ∧
        p.2 ∈ checkNotificationNeeded env st.ledger ev etype rules now trig := by
  unfold processRow at h
  split at h
  · exact Or.inl h
  · rename_i ev hev
    split at h
    · exact Or.inl h
    · rcases processLabels_sent_src env ev etype now _ _ p h with hin | ⟨h1, h2⟩
      · exact Or.inl hin
      · exact Or.inr ⟨ev, hev, h1, h2⟩

/-- One row iteration leaves `errors` unchanged and counts the row in
`events_processed` exactly when it parses with a truthy `event_id`. -/
theorem processRow_counters (env : Env) (etype : String)
    (rules : List RawRule) (now : Minutes) (trig : String)
    (st : ProcState) (row : List String) :
    (processRow env etype rules now trig st row).errors = st.errors ∧
    (processRow env etype rules now trig st row).events_processed =
      st.events_processed + (if rowValid etype row then 1 else 0) := by
  unfold processRow
  split
  · rename_i hev
    simp [rowValid, hev]
  · rename_i ev hev
    split
    · rename_i hid
      have hid' : dget ev "event_id" "" = "" := by simpa using hid
      simp [rowValid, hev, hid']
    · rename_i hid
      have hid' : ¬ dget ev "event_id" "" = "" := by simpa using hid
      have hc := processLabels_counters env ev etype now
        (checkNotificationNeeded env st.ledger ev etype rules now trig)
        { st with events_processed := st.events_processed + 1 }
      refine ⟨hc.2, ?_⟩
      rw [hc.1]
      simp [rowValid, hev, hid']

/-- Once a notification key is in the ledger and its lookup does not
raise, no later row of the run can send that `(event_id, label)` pair
again. -/
theorem run_preserves (env : Env) (etype : String) (rules : List RawRule)
    (now : Minutes) (trig : String) (eid lab : String)
    (hNR : env.lookupRaises (notificationKey eid lab) etype = false) :
    ∀ (rows : List (List String)) (st : ProcState),
      ledgerHas st.ledger (notificationKey eid lab) etype = true →
      (eid, lab) ∉ st.sent →
      ledgerHas (rows.foldl (processRow env etype rules now trig) st).ledger
          (notificationKey eid lab) etype = true ∧
      (eid, lab) ∉ (rows.foldl (processRow env etype rules now trig) st).sent := by
  intro rows
  induction rows with
  | nil => intro st h1 h2; exact ⟨h1, h2⟩
  | cons row rows ih =>
    intro st h1 h2
    rw [List.foldl_cons]
    apply ih
    · exact processRow_ledgerHas env etype rules now trig st row _ _ h1
    · intro hmem
      rcases processRow_sent_src env etype rules now trig st row _ hmem with
        hin | ⟨ev, _, heid, hlab⟩
      · exact h2 hin
      · have hfree := mem_checkNeeded env st.ledger ev etype rules now trig lab hlab
        have heid' : dget ev "event_id" "" = eid := by simpa using heid.symm
        rw [heid'] at hfree
        unfold isAlreadyNotified at hfree
        rw [hNR] at hfree
        simp only [if_neg Bool.false_ne_true, Bool.false_eq_true, if_false] at hfree
        rw [h1] at hfree
        exact Bool.true_eq_false.mp hfree

/-- Over any batch, `errors` is never appended to (all exceptions are
caught before re-raising would reach the per-row handler) and
`events_processed` counts exactly the rows that parse with a truthy id. -/
theorem run_counters (env : Env) (etype : String) (rules : List RawRule)
    (now : Minutes) (trig : String) :
    ∀ (rows : List (List String)) (st : ProcState),
      (rows.foldl (processRow env etype rules now trig) st).errors = st.errors ∧
      (rows.foldl (processRow env etype rules now trig) st).events_processed =
        st.events_processed + rows.countP (rowValid etype) := by
  intro rows
  induction rows with
  | nil => intro st; simp
  | cons row rows ih =>
    intro st
    rw [List.foldl_cons]
    rcases ih (processRow env etype rules now trig st row) with ⟨he, hn⟩
    rcases processRow_counters env etype rules now trig st row with ⟨he', hn'⟩
    refine ⟨he.trans he', ?_⟩
    rw [hn, hn', List.countP_cons]
    by_cases hv : rowValid etype row = true
    · simp only [hv, if_true]
      omega
    · simp only [hv, if_false]
      omega

/-- `_check_notification_needed` on a single well-formed rule, for an
event that parses to a non-past datetime: the label is returned exactly
when `now` is inside the closed window and the ledger check is clear. -/
theorem checkNeeded_singleton (env : Env) (ledger : Ledger)
    (ev : List (String × String)) (etype : String) (now : Minutes)
    (trig : String) (r : Rule) (edt : Minutes)
    (hp : parseEventDatetime (dget ev "date" "") (dget ev "time" "") = some edt)
    (hfut : ¬ edt < now) :
    checkNotificationNeeded env ledger ev etype [r.raw] now trig =
      (if notificationTime etype edt r.days r.hours r.label - halfWidthMin trig ≤ now ∧
          now ≤ notificationTime etype edt r.days r.hours r.label + halfWidthMin trig ∧
          isAlreadyNotified env ledger (dget ev "event_id" "") etype r.label = false
        then [r.label] else []) := by
  unfold checkNotificationNeeded
  rw [hp]
  dsimp only
  rw [if_neg hfut]
  simp only [checkGo, Rule.raw]
  split
  · rename_i hwin
    split
    · rename_i hnot
      rw [if_neg]
      rintro ⟨-, -, hfalse⟩
      rw [hnot] at hfalse
      exact Bool.true_eq_false.mp hfalse
    · rename_i hnot
      rw [if_pos ⟨hwin.1, hwin.2, by simpa using hnot⟩]
      simp
  · rename_i hwin
    rw [if_neg]
    rintro ⟨h1, h2, -⟩
    exact hwin ⟨h1, h2⟩

/-- A parsed `HH:MM` time is less than a day of minutes. -/
theorem parseTimeMin_lt (s : String) (m : Nat)
    (h : parseTimeMin s = some m) : m < 1440 := by
  unfold parseTimeMin at h
  split at h
  · split at h
    · dsimp only at h
      split at h
      · rename_i hcond
        simp only [Bool.and_eq_true, decide_eq_true_eq] at hcond
        have hm := Option.some.inj h
        omega
      · exact absurd h (by simp)
    · exact absurd h (by simp)
  · exact absurd h (by simp)

/-- Floor division recovers the day of a day-plus-minutes decomposition. -/
theorem fdiv_day_decomp (D : Int) (m : Nat) (hm : m < 1440) :
    (D * 1440 + (m : Int)).fdiv 1440 = D := by
  rw [Int.fdiv_eq_ediv _ (by norm_num : (0 : Int) ≤ 1440)]
  have h1 : D * 1440 + (m : Int) = (m : Int) + D * 1440 := by ring
  rw [h1, Int.add_mul_ediv_right _ _ (by norm_num : (1440 : Int) ≠ 0),
    Int.ediv_eq_zero_of_lt (Int.natCast_nonneg m) (by exact_mod_cast hm)]
  ring

/-- `replace(hour=18, minute=0)` on a day-plus-minutes decomposition. -/
theorem replaceSixPm_decomp (D : Int) (m : Nat) (hm : m < 1440) :
    replaceSixPm (D * 1440 + (m : Int)) = D * 1440 + 1080 := by
  unfold replaceSixPm
  rw [fdiv_day_decomp D m hm]

/-- Splitting a character list at a separator absent from both heads is
unambiguous. -/
theorem hash_split : ∀ (xs us ys vs : List Char),
    '#' ∉ xs → '#' ∉ us → xs ++ '#' :: ys = us ++ '#' :: vs →
    xs = us ∧ ys = vs := by
  intro xs
  induction xs with
  | nil =>
    intro us ys vs _ hu h
    cases us with
    | nil =>
      simp only [List.nil_append] at h
      exact ⟨rfl, List.cons.inj h |>.2⟩
    | cons u us' =>
      simp only [List.nil_append, List.cons_append] at h
      rcases List.cons.inj h with ⟨h1, -⟩
      exact absurd (h1 ▸ List.mem_cons_self u us') hu
  | cons x xs' ih =>
    intro us ys vs hx hu h
    cases us with
    | nil =>
      simp only [List.cons_append, List.nil_append] at h
      rcases List.cons.inj h with ⟨h1, -⟩
      exact absurd (h1 ▸ List.mem_cons_self x xs') hx
    | cons u us' =>
      simp only [List.cons_append] at h
      rcases List.cons.inj h with ⟨h1, h2⟩
      have hx' : '#' ∉ xs' := fun hmem => hx (List.mem_cons_of_mem x hmem)
      have hu' : '#' ∉ us' := fun hmem => hu (List.mem_cons_of_mem u hmem)
      rcases ih us' ys vs hx' hu' h2 with ⟨h3, h4⟩
      exact ⟨by rw [h1, h3], h4⟩

/-! ### Claim theorems -/

/-- C1, exactly-once reporting (idempotence): if a run of `process_events`
leaves a ledger record for `(event_id, event_type, label)` — in particular
when that run itself sent and successfully recorded it — then a second
`process_events` call with the same rows, rules, `now` and trigger
granularity, starting from the first run's ledger, never sends that
`(event_id, label)` pair again (its ledger lookup finds the entry, so the
label is excluded from the due labels), and `notifications_sent` counts
exactly the pairs sent, so it does not count the pair a second time. -/
theorem idempotent_second_run (env : Env) (rows : List (List String))
    (etype : String) (rules : List RawRule) (now : Minutes) (trig : String)
    (ledger0 : Ledger) (eid lab : String)
    (hNR : env.lookupRaises (notificationKey eid lab) etype = false)
    (hRec : ledgerHas
      (processEventsFull env rows etype rules now trig ledger0).ledger
      (notificationKey eid lab) etype = true) :
    (eid, lab) ∉ (processEventsFull env rows etype rules now trig
        (processEventsFull env rows etype rules now trig ledger0).ledger).sent ∧
    (processEvents env rows etype rules now trig
        (processEventsFull env rows etype rules now trig ledger0).ledger).notifications_sent =
      (processEventsFull env rows etype rules now trig
        (processEventsFull env rows etype rules now trig ledger0).ledger).sent.length := by
  constructor
  · have h := run_preserves env etype rules now trig eid lab hNR rows
      { events_processed := 0, sent := [], errors := [],
        ledger := (processEventsFull env rows etype rules now trig ledger0).ledger }
      hRec (by simp)
    exact h.2
  · rfl

/-- Witness for C1: a concert due exactly at `now` is sent and recorded by
the first run, and the second identical run does not send it again. -/
theorem idempotent_second_run_witness :
    envAllOk.lookupRaises (notificationKey "id1" "1_day_before") "concerts" = false ∧
    ledgerHas (processEventsFull envAllOk rowsOneConcert "concerts"
        [zeroOffsetRule] nowMar10 "hourly-urgent" []).ledger
      (notificationKey "id1" "1_day_before") "concerts" = true ∧
    ("id1", "1_day_before") ∉ (processEventsFull envAllOk rowsOneConcert "concerts"
        [zeroOffsetRule] nowMar10 "hourly-urgent"
        (processEventsFull envAllOk rowsOneConcert "concerts"
          [zeroOffsetRule] nowMar10 "hourly-urgent" []).ledger).sent :=
  ⟨rfl, by decide,
    (idempotent_second_run envAllOk rowsOneConcert "concerts" [zeroOffsetRule]
      nowMar10 "hourly-urgent" [] "id1" "1_day_before" rfl (by decide)).1⟩

/-- C6, no past-event firing: whenever the event's combined datetime
parses and is strictly earlier than `now`, the window evaluator returns
the empty list, for every rule configuration and trigger granularity. -/
theorem past_event_never_fires (env : Env) (ledger : Ledger)
    (ev : List (String × String)) (etype : String) (rules : List RawRule)
    (now : Minutes) (trig : String) (edt : Minutes)
    (hp : parseEventDatetime (dget ev "date" "") (dget ev "time" "") = some edt)
    (hpast : edt < now) :
    checkNotificationNeeded env ledger ev etype rules now trig = [] := by
  unfold checkNotificationNeeded
  rw [hp]
  dsimp only
  rw [if_pos hpast]

/-- Witness for C6: one minute after the event, nothing fires even with a
rule whose window would cover `now`. -/
theorem past_event_never_fires_witness :
    parseEventDatetime (dget evConcert1 "date" "") (dget evConcert1 "time" "") =
      some nowMar10 ∧
    nowMar10 < nowMar10 + 1 ∧
    checkNotificationNeeded envAllOk [] evConcert1 "concerts" [zeroOffsetRule]
      (nowMar10 + 1) "hourly-urgent" = [] :=
  ⟨by decide, by decide,
    past_event_never_fires envAllOk [] evConcert1 "concerts" [zeroOffsetRule]
      (nowMar10 + 1) "hourly-urgent" nowMar10 (by decide) (by decide)⟩

/-- C2, window correctness with inclusive boundaries: for a well-formed
rule and an event whose parsed datetime is not in the past, under the
`hourly-urgent` trigger the label is due exactly when `now` lies in the
closed interval of one hour around the computed notification time, and
under any other trigger exactly when `now` lies in the closed interval of
three hours around it — in both cases additionally requiring a clear
ledger check for the key. -/
theorem window_inclusive (env : Env) (ledger : Ledger)
    (ev : List (String × String)) (etype : String) (now : Minutes)
    (trig : String) (r : Rule) (edt : Minutes)
    (hp : parseEventDatetime (dget ev "date" "") (dget ev "time" "") = some edt)
    (hfut : ¬ edt < now) :
    (trig = "hourly-urgent" →
      (r.label ∈ checkNotificationNeeded env ledger ev etype [r.raw] now trig ↔
        notificationTime etype edt r.days r.hours r.label - 60 ≤ now ∧
        now ≤ notificationTime etype edt r.days r.hours r.label + 60 ∧
        isAlreadyNotified env ledger (dget ev "event_id" "") etype r.label = false)) ∧
    (trig ≠ "hourly-urgent" →
      (r.label ∈ checkNotificationNeeded env ledger ev etype [r.raw] now trig ↔
        notificationTime etype edt r.days r.hours r.label - 180 ≤ now ∧
        now ≤ notificationTime etype edt r.days r.hours r.label + 180 ∧
        isAlreadyNotified env ledger (dget ev "event_id" "") etype r.label = false)) := by
  rw [checkNeeded_singleton env ledger ev etype now trig r edt hp hfut]
  constructor
  · intro ht
    have hw : halfWidthMin trig = 60 := by simp [halfWidthMin, ht]
    rw [hw]
    split
    · rename_i hcond
      simp only [List.mem_singleton, true_iff, iff_true]
      exact hcond
    · rename_i hcond
      simp only [List.not_mem_nil, false_iff]
      exact hcond
  · intro ht
    have hbeq : (trig == "hourly-urgent") = false := by
      simpa using ht
    have hw : halfWidthMin trig = 180 := by simp [halfWidthMin, hbeq]
    rw [hw]
    split
    · rename_i hcond
      simp only [List.mem_singleton, true_iff, iff_true]
      exact hcond
    · rename_i hcond
      simp only [List.not_mem_nil, false_iff]
      exact hcond

/-- Witness for C2: at the upper boundary `now = T + 1h` of the frequent
window, the iff holds (and its right side is satisfied, so the label is
due). -/
theorem window_inclusive_witness :
    parseEventDatetime (dget evConcert1 "date" "") (dget evConcert1 "time" "") =
      some nowMar10 ∧
    ¬ nowMar10 < nowMar10 - 1380 ∧
    (ruleOneDay.label ∈ checkNotificationNeeded envAllOk [] evConcert1 "concerts"
        [ruleOneDay.raw] (nowMar10 - 1380) "hourly-urgent" ↔
      notificationTime "concerts" nowMar10 ruleOneDay.days ruleOneDay.hours
          ruleOneDay.label - 60 ≤ nowMar10 - 1380 ∧
      nowMar10 - 1380 ≤ notificationTime "concerts" nowMar10 ruleOneDay.days
          ruleOneDay.hours ruleOneDay.label + 60 ∧
      isAlreadyNotified envAllOk [] (dget evConcert1 "event_id" "") "concerts"
          ruleOneDay.label = false) :=
  ⟨by decide, by decide,
    (window_inclusive envAllOk [] evConcert1 "concerts" (nowMar10 - 1380)
      "hourly-urgent" ruleOneDay nowMar10 (by decide) (by decide)).1 rfl⟩

/-- C5, study fixed-anchor override: for EVERY study-category event whose
date and time parse — on any calendar date — the rule labelled
`1_day_before_6pm` gets `notification_time` 18:00 local on the day
before the event (the minute count `(day - 1) * 1440 + 1080`, where
`day` is the event date's civil day number and the conjunct
`edt.fdiv 1440 = day` certifies that `day` really is the parsed event's
day), regardless of the rule's configured day/hour offsets; in
particular a study event on 2025-03-10 yields 2025-03-09 18:00 local
for any offset configuration. -/
theorem study_anchor_override :
    (∀ (ds ts : String) (edt : Minutes) (dys hrs : Int) (day : Int),
      parseDateDay ds = some day →
      parseEventDatetime ds ts = some edt →
      edt.fdiv 1440 = day ∧
      notificationTime "study" edt dys hrs "1_day_before_6pm" =
        (day - 1) * 1440 + 1080) ∧
    (∀ (ts : String) (edt : Minutes) (dys hrs : Int),
      parseEventDatetime "2025-03-10" ts = some edt →
      notificationTime "study" edt dys hrs "1_day_before_6pm" =
        daysFromCivil 2025 3 9 * 1440 + 1080) := by
  have hA : ∀ (ds ts : String) (edt : Minutes) (dys hrs : Int) (day : Int),
      parseDateDay ds = some day →
      parseEventDatetime ds ts = some edt →
      edt.fdiv 1440 = day ∧
      notificationTime "study" edt dys hrs "1_day_before_6pm" =
        (day - 1) * 1440 + 1080 := by
    intro ds ts edt dys hrs day hD hp
    unfold parseEventDatetime at hp
    rw [hD] at hp
    cases ht : parseTimeMin ts with
    | none =>
      rw [ht] at hp
      exact absurd hp (by simp)
    | some m =>
      rw [ht] at hp
      dsimp only at hp
      have hedt : edt = day * 1440 + (m : Int) := (Option.some.inj hp).symm
      have hm := parseTimeMin_lt ts m ht
      constructor
      · rw [hedt]
        exact fdiv_day_decomp day m hm
      · have hkey : notificationTime "study" edt dys hrs "1_day_before_6pm" =
            replaceSixPm (edt - 1440) := by
          simp [notificationTime]
        rw [hkey]
        have hdec : edt - 1440 = (day - 1) * 1440 + (m : Int) := by
          rw [hedt]
          ring
        rw [hdec, replaceSixPm_decomp _ m hm]
  refine ⟨hA, ?_⟩
  intro ts edt dys hrs hp
  have h := hA "2025-03-10" ts edt dys hrs (daysFromCivil 2025 3 10)
    (by decide) hp
  rw [h.2,
    (by decide : daysFromCivil 2025 3 9 = daysFromCivil 2025 3 10 - 1)]

/-- Witness for C5: a study session on 2025-03-10 09:30 with offsets
(5 days, 7 hours) — the universal statement applied there puts the
notification at 18:00 on the day before, i.e. 2025-03-09 18:00. -/
theorem study_anchor_override_witness :
    parseDateDay "2025-03-10" = some (daysFromCivil 2025 3 10) ∧
    parseEventDatetime "2025-03-10" "09:30" =
      some (daysFromCivil 2025 3 10 * 1440 + 570) ∧
    ((daysFromCivil 2025 3 10 * 1440 + 570 : Int).fdiv 1440 =
        daysFromCivil 2025 3 10 ∧
      notificationTime "study" (daysFromCivil 2025 3 10 * 1440 + 570) 5 7
        "1_day_before_6pm" = (daysFromCivil 2025 3 10 - 1) * 1440 + 1080) ∧
    notificationTime "study" (daysFromCivil 2025 3 10 * 1440 + 570) 5 7
      "1_day_before_6pm" = daysFromCivil 2025 3 9 * 1440 + 1080 :=
  ⟨by decide, by decide,
    study_anchor_override.1 "2025-03-10" "09:30"
      (daysFromCivil 2025 3 10 * 1440 + 570) 5 7 (daysFromCivil 2025 3 10)
      (by decide) (by decide),
    study_anchor_override.2 "09:30" (daysFromCivil 2025 3 10 * 1440 + 570) 5 7
      (by decide)⟩

/-- Counterexample for C3: in the claim's own scenario — a 5-row concert
batch whose third row is too short — `process_events` counts 4 events and
propagates no exception, but the error list is empty, not of length one:
the short row is skipped via `continue` after `_parse_event_row` returns
`None`, and nothing is appended to `errors`. -/
theorem short_row_no_error_entry :
    (processEvents envAllOk rowsFiveConcerts "concerts" [] nowMar10
        "manual" []).events_processed = 4 ∧
    (processEvents envAllOk rowsFiveConcerts "concerts" [] nowMar10
        "manual" []).errors = [] ∧
    ¬ (processEvents envAllOk rowsFiveConcerts "concerts" [] nowMar10
        "manual" []).errors.length = 1 := by
  refine ⟨by decide, by decide, by decide⟩

/-- C3 as amended: `process_events` never propagates an exception for a
per-row failure (it is a total function of its inputs), a malformed row
is excluded from `events_processed`, and the returned error list is
always empty — a malformed (too-short) row is skipped with a log warning
and contributes no entry to `errors`, because every callee inside the row
loop catches its own exceptions before they can reach the per-row
handler that would append one. -/
theorem row_isolation_amended (env : Env) (rows : List (List String))
    (etype : String) (rules : List RawRule) (now : Minutes) (trig : String)
    (ledger : Ledger) :
    (processEvents env rows etype rules now trig ledger).errors = [] ∧
    (processEvents env rows etype rules now trig ledger).events_processed =
      rows.countP (rowValid etype) := by
  have h := run_counters env etype rules now trig rows
    { events_processed := 0, sent := [], errors := [], ledger := ledger }
  exact ⟨h.1, by simpa using h.2⟩

/-- Counterexample for C4: with a healthy email channel and a ledger whose
`put_item` always raises, the one due label is dispatched (the channel
send succeeds) and the ledger write is attempted, yet
`notifications_sent` is 0, not 1: the raised write is caught and
`_send_and_track_notification` returns `False`, so the dispatch is not
counted. -/
theorem ledger_write_failure_not_counted :
    (sendNotification envPutFails evConcert1 "concerts" "1_day_before").email =
      true ∧
    parseEventRow ["id1", "Band", "Venue", "2025-03-10", "10:00", "Lima"]
      "concerts" = some evConcert1 ∧
    checkNotificationNeeded envPutFails [] evConcert1 "concerts"
      [zeroOffsetRule] nowMar10 "hourly-urgent" = ["1_day_before"] ∧
    ¬ (processEvents envPutFails rowsOneConcert "concerts" [zeroOffsetRule]
        nowMar10 "hourly-urgent" []).notifications_sent = 1 ∧
    (processEvents envPutFails rowsOneConcert "concerts" [zeroOffsetRule]
        nowMar10 "hourly-urgent" []).notifications_sent = 0 := by
  refine ⟨by decide, by decide, by decide, by decide, by decide⟩

/-- C4 as amended: a dispatch with at least one successful channel counts
toward `notifications_sent` only when the attempted ledger write also
succeeds; when `put_item` raises, the failure is caught and logged, the
already-delivered channels are not rolled back, but
`_send_and_track_notification` returns `False` with the ledger unchanged,
so the dispatch is not counted. -/
theorem ledger_write_failure_returns_false (env : Env) (ledger : Ledger)
    (ev : List (String × String)) (etype lab : String) (now : Minutes)
    (hch : (sendNotification env ev etype lab).email = true ∨
      (sendNotification env ev etype lab).discord = true)
    (hput : env.putRaises (notificationKey (dget ev "event_id" "") lab) etype =
      true) :
    sendAndTrack env ledger ev etype lab now = (false, ledger) := by
  simp only [sendAndTrack]
  rw [if_pos (Bool.or_eq_true _ _ ▸ hch.elim (fun h => Or.inl h) (fun h => Or.inr h) : ((sendNotification env ev etype lab).email || (sendNotification env ev etype lab).discord) = true)]
  rw [if_pos hput]

/-- Witness for C4's amended theorem: the concrete scenario of the
counterexample, applied through the theorem. -/
theorem ledger_write_failure_returns_false_witness :
    ((sendNotification envPutFails evConcert1 "concerts" "1_day_before").email =
        true ∨
      (sendNotification envPutFails evConcert1 "concerts" "1_day_before").discord =
        true) ∧
    envPutFails.putRaises
      (notificationKey (dget evConcert1 "event_id" "") "1_day_before")
      "concerts" = true ∧
    sendAndTrack envPutFails [] evConcert1 "concerts" "1_day_before" nowMar10 =
      (false, []) :=
  ⟨Or.inl (by decide), rfl,
    ledger_write_failure_returns_false envPutFails [] evConcert1 "concerts"
      "1_day_before" nowMar10 (Or.inl (by decide)) rfl⟩

/-- C7, channel independence and partial-success recording: with a known
template, the Discord outcome of `send_notification` does not depend on
the email oracle (each channel is attempted in its own `try/except`), and
when email fails while Discord succeeds and the ledger write does not
raise, `_send_and_track_notification` reports the dispatch as sent and
appends a ledger entry whose channel map records email `false`, discord
`true`. -/
theorem channel_independence (env : Env) (ledger : Ledger)
    (ev : List (String × String)) (etype lab : String) (now : Minutes)
    (hk : knownTemplate etype lab = true)
    (hm : env.emailSendOk (dget ev "event_id" "") etype lab = false)
    (hd : env.discordSendOk (dget ev "event_id" "") etype lab = true)
    (hput : env.putRaises (notificationKey (dget ev "event_id" "") lab) etype =
      false) :
    (∀ f g : String → String → String → Bool,
      (sendNotification { env with emailSendOk := f } ev etype lab).discord =
        (sendNotification { env with emailSendOk := g } ev etype lab).discord) ∧
    sendAndTrack env ledger ev etype lab now =
      (true, ledger ++
        [{ event_id := notificationKey (dget ev "event_id" "") lab
           event_type := etype
           event_date := dget ev "date" ""
           notification_label := lab
           sent_at := now
           channels := { email := false, discord := true } }]) := by
  constructor
  · intro f g
    simp [sendNotification, hk]
  · have hres : sendNotification env ev etype lab =
        { email := false, discord := true } := by
      simp [sendNotification, hk, hm, hd]
    simp only [sendAndTrack, hres]
    simp [hput]

/-- Witness for C7: email down, Discord up, healthy ledger — the dispatch
is counted and the recorded channel map is email `false`, discord
`true`. -/
theorem channel_independence_witness :
    knownTemplate "concerts" "1_day_before" = true ∧
    envEmailDown.emailSendOk (dget evConcert1 "event_id" "") "concerts"
      "1_day_before" = false ∧
    envEmailDown.discordSendOk (dget evConcert1 "event_id" "") "concerts"
      "1_day_before" = true ∧
    envEmailDown.putRaises
      (notificationKey (dget evConcert1 "event_id" "") "1_day_before")
      "concerts" = false ∧
    sendAndTrack envEmailDown [] evConcert1 "concerts" "1_day_before" nowMar10 =
      (true,
        [{ event_id := notificationKey (dget evConcert1 "event_id" "") "1_day_before"
           event_type := "concerts"
           event_date := dget evConcert1 "date" ""
           notification_label := "1_day_before"
           sent_at := nowMar10
           channels := { email := false, discord := true } }]) :=
  ⟨by decide, rfl, rfl, rfl,
    (channel_independence envEmailDown [] evConcert1 "concerts" "1_day_before"
      nowMar10 (by decide) rfl rfl rfl).2⟩

/-- C8, fail-open ledger lookup: when the point lookup for a notification
key raises, `_is_already_notified` returns `false` (never propagating the
failure), and consequently a rule whose window covers `now` remains
eligible and its label is still returned by the window evaluator — even
if the ledger actually holds an entry for the key. -/
theorem lookup_failure_fails_open (env : Env) (ledger : Ledger)
    (ev : List (String × String)) (etype : String) (now : Minutes)
    (trig : String) (r : Rule) (edt : Minutes)
    (hraise : env.lookupRaises
      (notificationKey (dget ev "event_id" "") r.label) etype = true)
    (hp : parseEventDatetime (dget ev "date" "") (dget ev "time" "") = some edt)
    (hfut : ¬ edt < now)
    (hw1 : notificationTime etype edt r.days r.hours r.label -
      halfWidthMin trig ≤ now)
    (hw2 : now ≤ notificationTime etype edt r.days r.hours r.label +
      halfWidthMin trig) :
    isAlreadyNotified env ledger (dget ev "event_id" "") etype r.label = false ∧
    r.label ∈ checkNotificationNeeded env ledger ev etype [r.raw] now trig := by
  have hfree : isAlreadyNotified env ledger (dget ev "event_id" "") etype
      r.label = false := by
    unfold isAlreadyNotified
    rw [hraise]
    simp
  refine ⟨hfree, ?_⟩
  rw [checkNeeded_singleton env ledger ev etype now trig r edt hp hfut,
    if_pos ⟨hw1, hw2, hfree⟩]
  simp

/-- Witness for C8: the ledger already holds the entry, every lookup
raises, and the rule still fires. -/
theorem lookup_failure_fails_open_witness :
    ledgerHas [itemId1]
      (notificationKey (dget evConcert1 "event_id" "") ruleZero.label)
      "concerts" = true ∧
    envLookupFails.lookupRaises
      (notificationKey (dget evConcert1 "event_id" "") ruleZero.label)
      "concerts" = true ∧
    isAlreadyNotified envLookupFails [itemId1] (dget evConcert1 "event_id" "")
      "concerts" ruleZero.label = false ∧
    ruleZero.label ∈ checkNotificationNeeded envLookupFails [itemId1]
      evConcert1 "concerts" [ruleZero.raw] nowMar10 "hourly-urgent" :=
  ⟨by decide, rfl,
    (lookup_failure_fails_open envLookupFails [itemId1] evConcert1 "concerts"
      nowMar10 "hourly-urgent" ruleZero nowMar10 rfl (by decide) (by decide)
      (by decide) (by decide)).1,
    (lookup_failure_fails_open envLookupFails [itemId1] evConcert1 "concerts"
      nowMar10 "hourly-urgent" ruleZero nowMar10 rfl (by decide) (by decide)
      (by decide) (by decide)).2⟩

/-- C9 (implicit), total evaluator with partial results: the window
evaluator is a total function (every internal exception of the Python
body — unparseable datetime, failing ledger lookup, missing rule key —
is caught, so a list is always returned), and a rule dict missing one of
`days`, `hours`, `label` aborts the rule loop via the caught `KeyError`:
the result equals the evaluation of the longest well-formed head of the
rule list, i.e. the labels accumulated up to the failure point. -/
theorem evaluator_stops_at_bad_rule (env : Env) (ledger : Ledger)
    (ev : List (String × String)) (etype : String) (rules : List RawRule)
    (now : Minutes) (trig : String) :
    checkNotificationNeeded env ledger ev etype rules now trig =
      checkNotificationNeeded env ledger ev etype (rules.takeWhile ruleOk)
        now trig := by
  unfold checkNotificationNeeded
  cases hp : parseEventDatetime (dget ev "date" "") (dget ev "time" "") with
  | none => rfl
  | some edt =>
    dsimp only
    by_cases hlt : edt < now
    · rw [if_pos hlt, if_pos hlt]
    · rw [if_neg hlt, if_neg hlt]
      exact checkGo_takeWhile env ledger (dget ev "event_id" "") etype edt now
        trig rules []

/-- C10 (implicit), ledger-key encoding: for event ids and labels free of
the separator `#`, the composite key `event_id#label` (paired with
`event_type`) is injective — distinct `(event_id, label)` pairs give
distinct keys; but ids containing `#` collide: the id `a#b` with label
`c` and the id `a` with label `b#c` are distinct pairs sharing one key,
so two different reminders would share one ledger entry. -/
theorem key_injective_iff_no_hash :
    (∀ a b c d : String, '#' ∉ a.data → '#' ∉ b.data → '#' ∉ c.data →
      '#' ∉ d.data → notificationKey a b = notificationKey c d →
      a = c ∧ b = d) ∧
    notificationKey "a#b" "c" = notificationKey "a" "b#c" ∧
    ¬ (("a#b" : String) = "a" ∧ ("c" : String) = "b#c") := by
  refine ⟨?_, by decide, by decide⟩
  intro a b c d ha hb hc hd h
  have hdata : a.data ++ '#' :: b.data = c.data ++ '#' :: d.data := by
    have h2 := congrArg String.data h
    simpa [notificationKey, String.data_append] using h2
  rcases hash_split a.data c.data b.data d.data ha hc hdata with ⟨h1, h2⟩
  exact ⟨String.ext h1, String.ext h2⟩

/-- Witness for C10: the injectivity half applied at hash-free inputs. -/
theorem key_injective_iff_no_hash_witness :
    ("id1" : String) = "id1" ∧ ("1_day_before" : String) = "1_day_before" :=
  key_injective_iff_no_hash.1 "id1" "1_day_before" "id1" "1_day_before"
    (by decide) (by decide) (by decide) (by decide) rfl
